import Mathlib

/-!
# Verification of the voice-ai capture/segmentation and pipeline core

Shallow embedding of the Python sources of `daovinhkhang/voice-ai`.
Conventions used throughout:

* Python floats are modelled as exact rationals (`ℚ`);
* numpy sample arrays are `List ℚ`;
* Python strings are modelled as `List Char` (`str.strip` ↦ `pyStrip`,
  `str.lower` ↦ `pyLower`, slicing ↦ `List.take`);
* fallible code returns `Option`, with `none` standing for Python `None`;
* exceptions raised by an external library call are modelled as explicit
  outcome values passed to the embedded function.
-/

namespace VoiceAI

/-! ## src/audio/audio_handler.py — `AudioHandler.record_with_vad`

The recording loop polls `audio_queue.get(timeout=0.1)` and calls
`time.time()` as it runs.  We model the observable input of one loop
iteration as a pair `(now, ev)`: the wall-clock value `time.time()` reads
during that iteration and the queue observation `ev` (a frame, or the
`queue.Empty` poll timeout).  The loop body makes several `time.time()`
calls in one iteration; they are identified, which is the standard
discretisation (time does not advance inside a single iteration). -/

/-- A queue observation made by one iteration of the `record_with_vad` loop:
either a mono frame handed over by `audio_callback`, or the `queue.Empty`
exception of the 0.1 s poll. -/
inductive QEvent where
  | frame (samples : List ℚ)
  | emptyPoll
deriving DecidableEq

/-- The VAD tuning constants of `AudioHandler.__init__` (lines 32–34) together
with the `max_duration` argument of `record_with_vad`. -/
structure VadConfig where
  vad_threshold : ℚ
  silence_duration : ℚ
  min_recording_duration : ℚ
  max_duration : ℚ
deriving DecidableEq

/-- The defaults of the source: threshold `0.01`, silence budget `1.0` s,
minimum recording duration `0.5` s, `max_duration = 30.0` s. -/
def defaultVad : VadConfig :=
  { vad_threshold := 1/100
    silence_duration := 1
    min_recording_duration := 1/2
    max_duration := 30 }

/-- The mutable loop state of `record_with_vad`: `self.recorded_frames`,
`last_voice_time` and `recording_started`. -/
structure VadState where
  recorded_frames : List (List ℚ)
  last_voice_time : ℚ
  recording_started : Bool
deriving DecidableEq

/-- How the `while self.is_recording` loop stopped: the
"Recording timeout reached" break, the "Silence detected" break, or the
modelled finite trace ran out while the loop would have kept polling. -/
inductive VadStop where
  | timedOut
  | silenceStop
  | ranOut
deriving DecidableEq

/-- Result of running the loop: final state, stop reason, the unconsumed
part of the input trace (still sitting in `audio_queue`), and the clock
value at the stopping iteration. -/
structure VadRun where
  final : VadState
  stop : VadStop
  leftover : List (ℚ × QEvent)
  stopTime : ℚ
deriving DecidableEq

/-- Absolute value (`abs`) on ℚ, written with core rational comparison so that concrete
traces evaluate by `decide`. -/
def qabs (x : ℚ) : ℚ := if x < 0 then -x else x

/-- Maximum (`max`) on ℚ, written with core rational comparison so that concrete
traces evaluate by `decide`. -/
def qmax (a b : ℚ) : ℚ := if a ≤ b then b else a

/-- Peak amplitude `np.max(np.abs(frame))` of a frame (line 164). -/
def peakLevel (f : List ℚ) : ℚ :=
  (f.map qabs).foldr qmax 0

/-- Lines 161–170 of the loop body: append the frame to `recorded_frames`;
if its peak exceeds the threshold, set `last_voice_time := now` and
`recording_started := True`. -/
def frameUpdate (cfg : VadConfig) (now : ℚ) (s : VadState) (f : List ℚ) : VadState :=
  let voiced := decide (peakLevel f > cfg.vad_threshold)
  { recorded_frames := s.recorded_frames ++ [f]
    last_voice_time := if voiced then now else s.last_voice_time
    recording_started := s.recording_started || voiced }

/-- Lines 173–180: the "Silence detected, stopping recording" break fires
when voice has been detected, continuous silence exceeds
`silence_duration`, and total elapsed time has reached
`min_recording_duration`. -/
def silenceBreak (cfg : VadConfig) (start now : ℚ) (s1 : VadState) : Bool :=
  s1.recording_started && decide (now - s1.last_voice_time > cfg.silence_duration)
    && decide (now - start ≥ cfg.min_recording_duration)

/-- The `while self.is_recording:` loop of `record_with_vad`
(lines 152–185), iterated over a finite observation trace.  Per iteration:
the timeout check (line 154, strict `>`), then the queue poll; a frame is
handled by `frameUpdate` and may trigger the `silenceBreak` exit. -/
def runVad (cfg : VadConfig) (start : ℚ) : VadState → List (ℚ × QEvent) → VadRun
  | s, [] => ⟨s, .ranOut, [], start⟩
  | s, (now, ev) :: rest =>
    if now - start > cfg.max_duration then
      ⟨s, .timedOut, (now, ev) :: rest, now⟩
    else
      match ev with
      | .emptyPoll => runVad cfg start s rest
      | .frame f =>
        let s1 := frameUpdate cfg now s f
        if silenceBreak cfg start now s1 then
          ⟨s1, .silenceStop, rest, now⟩
        else
          runVad cfg start s1 rest

/-- The frames still sitting in `audio_queue` in an unconsumed trace suffix
(drained by `stop_recording`, lines 114–119). -/
def framesOf (l : List (ℚ × QEvent)) : List (List ℚ) :=
  l.foldr (fun e acc => match e.2 with | .frame f => f :: acc | .emptyPoll => acc) []

/-- Embedding of `AudioHandler.stop_recording` (lines 99–132): drain the queue into
`recorded_frames`, then return `np.concatenate(frames)` if any frame was
recorded and `None` ("No audio data recorded") otherwise. -/
def stop_recording (recorded queued : List (List ℚ)) : Option (List ℚ) :=
  let all := recorded ++ queued
  if all = [] then none else some all.flatten

/-- Embedding of `AudioHandler.record_with_vad` (lines 134–192): run the VAD loop from a
fresh state (`recorded_frames = []`, `last_voice_time = start_time`,
`recording_started = False`) and hand the result to `stop_recording`.
Returns the recorded audio (or `None`) together with the stop reason. -/
def record_with_vad (cfg : VadConfig) (start : ℚ) (trace : List (ℚ × QEvent)) :
    Option (List ℚ) × VadStop :=
  let r := runVad cfg start ⟨[], start, false⟩ trace
  (stop_recording r.final.recorded_frames (framesOf r.leftover), r.stop)

/-! ### Facts about the recording loop -/

theorem frameUpdate_frames (cfg : VadConfig) (now : ℚ) (s : VadState) (f : List ℚ) :
    (frameUpdate cfg now s f).recorded_frames = s.recorded_frames ++ [f] := rfl

/-- A frame at or below the threshold does not change `recording_started`. -/
theorem frameUpdate_started_of_silent (cfg : VadConfig) (now : ℚ) (s : VadState)
    (f : List ℚ) (hf : peakLevel f ≤ cfg.vad_threshold) :
    (frameUpdate cfg now s f).recording_started = s.recording_started := by
  simp [frameUpdate, decide_eq_false (not_lt.mpr hf)]

/-- The silence break never fires before voice has been detected. -/
theorem silenceBreak_false_of_not_started (cfg : VadConfig) (start now : ℚ)
    (s1 : VadState) (h : s1.recording_started = false) :
    silenceBreak cfg start now s1 = false := by
  simp [silenceBreak, h]

/-- The silence break fires only once total elapsed time has reached the
minimum recording duration. -/
theorem silenceBreak_min (cfg : VadConfig) (start now : ℚ) (s1 : VadState)
    (h : silenceBreak cfg start now s1 = true) :
    now - start ≥ cfg.min_recording_duration := by
  simp only [silenceBreak, Bool.and_eq_true, decide_eq_true_eq] at h
  exact h.2

/-- No frame is ever dropped: the frames recorded by the loop together with
the frames left in the queue are exactly the initial frames plus every frame
of the trace. -/
theorem runVad_frames_conserved (cfg : VadConfig) (start : ℚ) (s : VadState)
    (trace : List (ℚ × QEvent)) :
    (runVad cfg start s trace).final.recorded_frames ++
      framesOf (runVad cfg start s trace).leftover =
    s.recorded_frames ++ framesOf trace := by
  induction trace generalizing s with
  | nil => simp [runVad, framesOf]
  | cons e rest ih =>
    obtain ⟨now, ev⟩ := e
    by_cases hto : now - start > cfg.max_duration
    · simp [runVad, hto]
    · cases ev with
      | emptyPoll => simpa [runVad, hto, framesOf] using ih s
      | frame f =>
        by_cases hb : silenceBreak cfg start now (frameUpdate cfg now s f) = true
        · simp [runVad, hto, hb, frameUpdate_frames, framesOf]
        · rw [show runVad cfg start s ((now, QEvent.frame f) :: rest) =
                runVad cfg start (frameUpdate cfg now s f) rest by
              simp [runVad, hto, hb]]
          rw [ih]
          simp [frameUpdate_frames, framesOf]

/-- On a trace whose frames all stay at or below the threshold, a loop that
has not yet seen voice never takes the silence break, never sets
`recording_started`, and reaches the timeout break as soon as the trace
contains an observation past the deadline. -/
theorem runVad_silent (cfg : VadConfig) (start : ℚ) (s : VadState)
    (trace : List (ℚ × QEvent))
    (hs : s.recording_started = false)
    (hsilent : ∀ p ∈ trace, ∀ f, p.2 = QEvent.frame f → peakLevel f ≤ cfg.vad_threshold) :
    (runVad cfg start s trace).stop ≠ .silenceStop ∧
    (runVad cfg start s trace).final.recording_started = false ∧
    ((∃ p ∈ trace, p.1 - start > cfg.max_duration) →
      (runVad cfg start s trace).stop = .timedOut) := by
  induction trace generalizing s with
  | nil => simp [runVad, hs]
  | cons e rest ih =>
    obtain ⟨now, ev⟩ := e
    by_cases hto : now - start > cfg.max_duration
    · simp [runVad, hto, hs]
    · have htail : ∀ p ∈ rest, ∀ f, p.2 = QEvent.frame f → peakLevel f ≤ cfg.vad_threshold :=
        fun p hp => hsilent p (List.mem_cons_of_mem _ hp)
      have hnotmem : ∀ h : (∃ p ∈ (now, ev) :: rest, p.1 - start > cfg.max_duration),
          ∃ p ∈ rest, p.1 - start > cfg.max_duration := by
        intro h
        obtain ⟨p, hp, hpt⟩ := h
        rcases List.mem_cons.mp hp with h | h
        · subst h
          exact absurd hpt hto
        · exact ⟨p, h, hpt⟩
      cases ev with
      | emptyPoll =>
        have h3 := ih s hs htail
        refine ⟨?_, ?_, fun hex => ?_⟩
        · simpa [runVad, hto] using h3.1
        · simpa [runVad, hto] using h3.2.1
        · simpa [runVad, hto] using h3.2.2 (hnotmem hex)
      | frame f =>
        have hf : peakLevel f ≤ cfg.vad_threshold :=
          hsilent (now, .frame f) (List.mem_cons_self _ _) f rfl
        have hs1 : (frameUpdate cfg now s f).recording_started = false :=
          (frameUpdate_started_of_silent cfg now s f hf).trans hs
        have hb : silenceBreak cfg start now (frameUpdate cfg now s f) = false :=
          silenceBreak_false_of_not_started cfg start now _ hs1
        have hstep : runVad cfg start s ((now, QEvent.frame f) :: rest) =
            runVad cfg start (frameUpdate cfg now s f) rest := by
          simp [runVad, hto, hb]
        have h3 := ih (frameUpdate cfg now s f) hs1 htail
        refine ⟨?_, ?_, fun hex => ?_⟩
        · exact hstep ▸ h3.1
        · exact hstep ▸ h3.2.1
        · exact hstep ▸ h3.2.2 (hnotmem hex)

/-- The silence break fires only with the minimum recording duration met, and
the timeout break only past the deadline. -/
theorem runVad_stop_times (cfg : VadConfig) (start : ℚ) (s : VadState)
    (trace : List (ℚ × QEvent)) :
    ((runVad cfg start s trace).stop = .silenceStop →
      (runVad cfg start s trace).stopTime - start ≥ cfg.min_recording_duration) ∧
    ((runVad cfg start s trace).stop = .timedOut →
      (runVad cfg start s trace).stopTime - start > cfg.max_duration) := by
  induction trace generalizing s with
  | nil => simp [runVad]
  | cons e rest ih =>
    obtain ⟨now, ev⟩ := e
    by_cases hto : now - start > cfg.max_duration
    · simp [runVad, hto]
    · cases ev with
      | emptyPoll => simpa [runVad, hto] using ih s
      | frame f =>
        by_cases hb : silenceBreak cfg start now (frameUpdate cfg now s f) = true
        · refine ⟨fun _ => ?_, fun hbad => ?_⟩
          · simpa [runVad, hto, hb] using silenceBreak_min cfg start now _ hb
          · simp [runVad, hto, hb] at hbad
        · simpa [runVad, hto, hb] using ih (frameUpdate cfg now s f)

/-- Decidable form of "this observation carries no voice": a poll timeout, or
a frame whose peak stays at or below the activity threshold (the code treats
a frame as voiced only when `audio_level > self.vad_threshold`, line 166). -/
def silentEvent (cfg : VadConfig) (ev : QEvent) : Bool :=
  match ev with
  | .frame f => decide (peakLevel f ≤ cfg.vad_threshold)
  | .emptyPoll => true

/-- C1 (amended): on a fully sub-threshold trace, `record_with_vad` never
takes the silence (`Complete`) exit and never detects voice
(`recording_started` stays `False`); it reaches the timeout exit once an
observation lies past the deadline; but every received frame is still
accumulated, so the `None` ("no speech detected") result arises only when
zero frames arrived — otherwise the concatenated silent audio is returned
as an ordinary segment. -/
theorem record_with_vad_silent_claim (cfg : VadConfig) (start : ℚ)
    (trace : List (ℚ × QEvent))
    (hsilent : ∀ p ∈ trace, silentEvent cfg p.2 = true) :
    (record_with_vad cfg start trace).2 ≠ .silenceStop ∧
    (runVad cfg start ⟨[], start, false⟩ trace).final.recording_started = false ∧
    ((∃ p ∈ trace, p.1 - start > cfg.max_duration) →
      (record_with_vad cfg start trace).2 = .timedOut) ∧
    (record_with_vad cfg start trace).1 =
      (if framesOf trace = [] then none else some (framesOf trace).flatten) := by
  have hsilent' : ∀ p ∈ trace, ∀ f, p.2 = QEvent.frame f → peakLevel f ≤ cfg.vad_threshold := by
    intro p hp f hf
    have h := hsilent p hp
    rw [hf] at h
    simpa [silentEvent] using h
  have hrs := runVad_silent cfg start ⟨[], start, false⟩ trace rfl hsilent'
  have hcons := runVad_frames_conserved cfg start ⟨[], start, false⟩ trace
  refine ⟨hrs.1, hrs.2.1, hrs.2.2, ?_⟩
  have hall : (runVad cfg start ⟨[], start, false⟩ trace).final.recorded_frames ++
      framesOf (runVad cfg start ⟨[], start, false⟩ trace).leftover = framesOf trace := by
    simpa using hcons
  show stop_recording _ _ = _
  rw [stop_recording]
  simp only [hall]

/-- C1 counterexample: a recording whose single frame stays strictly below
the VAD threshold (peak `0.005 < 0.01`) and then times out does NOT yield a
"no speech detected" result: the silent frame was accumulated, so
`record_with_vad` returns it as a usable audio segment (`some [1/200]`). -/
theorem record_with_vad_silent_counterexample :
    ([((1:ℚ), QEvent.frame [1/200]), (31, QEvent.emptyPoll)].all
        (fun p => silentEvent defaultVad p.2) = true) ∧
    record_with_vad defaultVad 0 [((1:ℚ), QEvent.frame [1/200]), (31, QEvent.emptyPoll)] =
      (some [1/200], VadStop.timedOut) ∧
    (record_with_vad defaultVad 0 [((1:ℚ), QEvent.frame [1/200]), (31, QEvent.emptyPoll)]).1
      ≠ none := by
  refine ⟨?_, ?_, ?_⟩ <;>
    · norm_num [record_with_vad, runVad, frameUpdate, silenceBreak, peakLevel, qabs, qmax,
        framesOf, stop_recording, defaultVad, silentEvent]
      try simp

/-- Closed instance of `record_with_vad_silent_claim`: an all-silent
two-observation trace with a frame and a past-deadline poll. -/
theorem record_with_vad_silent_claim_witness :
    (record_with_vad defaultVad 0 [((1:ℚ), QEvent.frame [1/200]), (31, QEvent.emptyPoll)]).1 =
      (if framesOf [((1:ℚ), QEvent.frame [1/200]), (31, QEvent.emptyPoll)] = [] then none
       else some (framesOf [((1:ℚ), QEvent.frame [1/200]), (31, QEvent.emptyPoll)]).flatten) :=
  (record_with_vad_silent_claim defaultVad 0 _
    (by norm_num [silentEvent, peakLevel, qabs, qmax, defaultVad])).2.2.2

/-- C2: the silence exit of `record_with_vad` can only fire once total
elapsed recording time has reached `min_recording_duration`, and the
timeout exit only once the deadline `max_duration` has passed; so a
segment is never terminated on trailing silence while the recording is
still shorter than the configured minimum. -/
theorem record_with_vad_min_duration_guard (cfg : VadConfig) (start : ℚ)
    (trace : List (ℚ × QEvent)) :
    ((record_with_vad cfg start trace).2 = .silenceStop →
      (runVad cfg start ⟨[], start, false⟩ trace).stopTime - start ≥
        cfg.min_recording_duration) ∧
    ((record_with_vad cfg start trace).2 = .timedOut →
      (runVad cfg start ⟨[], start, false⟩ trace).stopTime - start > cfg.max_duration) :=
  runVad_stop_times cfg start ⟨[], start, false⟩ trace

/-- Closed instance of `record_with_vad_min_duration_guard`: a voiced frame
followed by trailing silence that exceeds the 1.0 s budget at `t = 2`. -/
theorem record_with_vad_min_duration_guard_witness :
    (runVad defaultVad 0 ⟨[], 0, false⟩
        [((0:ℚ), QEvent.frame [1]), (2, QEvent.frame [0])]).stopTime - 0 ≥
      defaultVad.min_recording_duration :=
  (record_with_vad_min_duration_guard defaultVad 0
      [((0:ℚ), QEvent.frame [1]), (2, QEvent.frame [0])]).1
    (by norm_num [record_with_vad, runVad, frameUpdate, silenceBreak, peakLevel, qabs, qmax,
      defaultVad])

/-! ## Python string helpers

Python `str` values are modelled as `List Char`; `str.strip` ↦ `pyStrip`,
`str.lower` ↦ `pyLower` (the sources only compare ASCII text). -/

/-- Python `str.strip()`: remove leading and trailing whitespace. -/
def pyStrip (s : List Char) : List Char :=
  ((s.dropWhile Char.isWhitespace).reverse.dropWhile Char.isWhitespace).reverse

/-- Python `str.lower()`. -/
def pyLower (s : List Char) : List Char := s.map Char.toLower

/-! ## src/llm/gpt_llm.py and sync_simple.py — conversation history

`GPTLLM.add_to_history` (lines 35–41) and `PureSyncLLM.add_to_history`
(lines 139–145) are textually identical; one embedding covers both. -/

/-- One entry of `self.conversation_history`: the dict
`{"role": role, "content": content}`. -/
structure ChatMessage where
  role : List Char
  content : List Char
deriving DecidableEq

/-- Method `add_to_history`: append the message, then
`if len(h) > 10: h = h[-10:]` — keep only the last 10 entries. -/
def add_to_history (h : List ChatMessage) (role content : List Char) : List ChatMessage :=
  let h1 := h ++ [⟨role, content⟩]
  if h1.length > 10 then h1.drop (h1.length - 10) else h1

/-- The last-10-entries suffix, Python `l[-10:]`. -/
def lastTen (l : List ChatMessage) : List ChatMessage := l.drop (l.length - 10)

theorem add_to_history_lastTen (l : List ChatMessage) (role content : List Char) :
    add_to_history (lastTen l) role content = lastTen (l ++ [⟨role, content⟩]) := by
  by_cases hl : l.length ≥ 10
  · have hlen : (lastTen l).length = 10 := by
      simp [lastTen, List.length_drop]
      omega
    have hgt : ((lastTen l) ++ [(⟨role, content⟩ : ChatMessage)]).length > 10 := by
      simp [hlen]
    rw [add_to_history]
    simp only [if_pos hgt]
    rw [List.drop_append_eq_append_drop]
    have h1 : ((lastTen l) ++ [(⟨role, content⟩ : ChatMessage)]).length - 10 = 1 := by
      simp [hlen]
    rw [h1]
    simp only [hlen, lastTen]
    rw [List.drop_drop]
    rw [List.drop_append_eq_append_drop]
    congr 1
    · congr 1
      simp
      omega
    · congr 1
      simp
      omega
  · have hl' : l.length < 10 := by omega
    have hz0 : l.length - 10 = 0 := by omega
    have h0 : lastTen l = l := by
      simp [lastTen, hz0]
    rw [h0, add_to_history]
    have hle : ¬ (l ++ [(⟨role, content⟩ : ChatMessage)]).length > 10 := by
      simp
      omega
    simp only [if_neg hle, lastTen]
    have hz : (l ++ [(⟨role, content⟩ : ChatMessage)]).length - 10 = 0 := by
      simp
      omega
    rw [hz, List.drop_zero]

/-- C3: starting from the empty history, any sequence of appends leaves the
history equal to the last (at most 10) appended messages in order — the
length never exceeds the cap of 10, and eviction is oldest-first. -/
theorem add_to_history_cap_fifo (ms : List ChatMessage) :
    (ms.foldl (fun h m => add_to_history h m.role m.content) []).length ≤ 10 ∧
    ms.foldl (fun h m => add_to_history h m.role m.content) [] =
      ms.drop (ms.length - 10) := by
  have key : ∀ (ms : List ChatMessage) (l : List ChatMessage),
      ms.foldl (fun h m => add_to_history h m.role m.content) (lastTen l) =
        lastTen (l ++ ms) := by
    intro ms
    induction ms with
    | nil => intro l; simp
    | cons m rest ih =>
      intro l
      have h1 : add_to_history (lastTen l) m.role m.content = lastTen (l ++ [m]) := by
        rw [add_to_history_lastTen]
      calc (m :: rest).foldl (fun h m => add_to_history h m.role m.content) (lastTen l)
          = rest.foldl (fun h m => add_to_history h m.role m.content) (lastTen (l ++ [m])) := by
            simp [List.foldl_cons, h1]
        _ = lastTen ((l ++ [m]) ++ rest) := ih (l ++ [m])
        _ = lastTen (l ++ m :: rest) := by simp
  have hmain : ms.foldl (fun h m => add_to_history h m.role m.content) [] =
      ms.drop (ms.length - 10) := by
    have h0 : lastTen [] = [] := rfl
    have := key ms []
    rw [h0] at this
    simpa [lastTen] using this
  refine ⟨?_, hmain⟩
  rw [hmain]
  simp only [List.length_drop]
  omega

/-! ## `generate_response` (gpt_llm.py lines 48–96, sync_simple.py 147–186)

The chat-completions call is external; its observable outcome is an
explicit value: it raised, it returned no choices, or it returned a
message content string. -/

/-- Outcome of `self.client.chat.completions.create`. -/
inductive LlmOutcome where
  | raisesErr
  | noChoices
  | content (raw : List Char)
deriving DecidableEq

/-- Method `generate_response`: append the user input to the history first; then,
on an exception, an empty choice list, or an all-whitespace reply, return
`None` leaving the history as is; on a non-empty reply append it as
`assistant` and return it.  Returns the reply and the final history. -/
def generate_response (history : List ChatMessage) (user_input : List Char)
    (outcome : LlmOutcome) : Option (List Char) × List ChatMessage :=
  let h1 := add_to_history history "user".data user_input
  match outcome with
  | .raisesErr => (none, h1)
  | .noChoices => (none, h1)
  | .content raw =>
    let ai := pyStrip raw
    if ai ≠ [] then (some ai, add_to_history h1 "assistant".data ai)
    else (none, h1)

/-- The message appended last by `add_to_history` always survives the cap. -/
theorem add_to_history_getLast (h : List ChatMessage) (role content : List Char) :
    (add_to_history h role content).getLast? = some ⟨role, content⟩ := by
  rw [add_to_history]
  split
  · have hlen : (h ++ [(⟨role, content⟩ : ChatMessage)]).length = h.length + 1 := by simp
    rw [hlen, List.drop_append_eq_append_drop]
    have h2 : h.length + 1 - 10 - h.length = 0 := by omega
    rw [h2, List.drop_zero]
    simp
  · simp

/-- C9: when the reply backend raises, returns no choices, or returns a
whitespace-only reply, `generate_response` returns `None` but the user
input has already been appended to the history and is not rolled back: the
final history is exactly the pre-call history plus the `user` entry, whose
appended message is its last element, with no `assistant` entry after it. -/
theorem generate_response_failure_keeps_user_entry (history : List ChatMessage)
    (user_input : List Char) (outcome : LlmOutcome)
    (hfail : outcome = .raisesErr ∨ outcome = .noChoices ∨
      (∃ raw, outcome = .content raw ∧ pyStrip raw = [])) :
    (generate_response history user_input outcome).1 = none ∧
    (generate_response history user_input outcome).2 =
      add_to_history history "user".data user_input ∧
    ((generate_response history user_input outcome).2).getLast? =
      some ⟨"user".data, user_input⟩ := by
  have hres : generate_response history user_input outcome =
      (none, add_to_history history "user".data user_input) := by
    rcases hfail with h | h | ⟨raw, hc, hstrip⟩
    · rw [h]; rfl
    · rw [h]; rfl
    · rw [hc]
      simp [generate_response, hstrip]
  rw [hres]
  exact ⟨rfl, rfl, add_to_history_getLast history "user".data user_input⟩

/-- Closed instance of `generate_response_failure_keeps_user_entry`: a
backend exception after one prior exchange leaves the orphaned user entry
as the last history element. -/
theorem generate_response_failure_witness :
    (generate_response [⟨"user".data, "hi".data⟩, ⟨"assistant".data, "chào".data⟩]
        "còn đó không".data LlmOutcome.raisesErr).1 = none ∧
    (generate_response [⟨"user".data, "hi".data⟩, ⟨"assistant".data, "chào".data⟩]
        "còn đó không".data LlmOutcome.raisesErr).2.getLast? =
      some ⟨"user".data, "còn đó không".data⟩ := by
  have h := generate_response_failure_keeps_user_entry
    [⟨"user".data, "hi".data⟩, ⟨"assistant".data, "chào".data⟩]
    "còn đó không".data LlmOutcome.raisesErr (Or.inl rfl)
  exact ⟨h.1, h.2.2⟩

/-! ## sync_simple.py — `PureSyncTTS.synthesize` (lines 209–311)

The gTTS call runs on a worker thread joined with a 5 s deadline; its
observable outcome is a value: decoded mp3 samples, the deadline expired
(`TimeoutError`), or the thread raised.  Audio buffers built by
`np.sin` are represented by their generating parameters
(amplitude, frequency, duration) — the individual transcendental sample
values are never inspected by the code's control flow. -/

/-- Observable outcome of the gTTS `tts.save` thread plus mp3 decode. -/
inductive GttsOutcome where
  | ok (samples : List ℚ)
  | timeoutExpired
  | raisesErr
deriving DecidableEq

/-- An audio buffer produced by `synthesize`: decoded provider audio, or a
pure sine tone `amp * sin(2π * freq * t)` of the given duration. -/
inductive TtsAudio where
  | decoded (samples : List ℚ)
  | beep (amp freq dur : ℚ)
deriving DecidableEq

/-- Lines 220–223: `if len(text) > 200: text = text[:200] + "..."`. -/
def tts_truncate (text : List Char) : List Char :=
  if text.length > 200 then text.take 200 ++ ['.', '.', '.'] else text

/-- Lines 272–275: `max_val = np.max(np.abs(audio)); if max_val > 0:
audio = audio / max_val * 0.9`. -/
def ttsNormalize (a : List ℚ) : List ℚ :=
  let max_val := (a.map qabs).foldr qmax 0
  if max_val > 0 then a.map (fun x => x / max_val * (9/10)) else a

/-- Method `PureSyncTTS.synthesize`: `None` when not initialized; otherwise
truncate the text, invoke gTTS on the truncated text, and return the
normalized decoded audio on success, the 440 Hz half-second beep on
`TimeoutError` (lines 283–291), or the 800 Hz 0.3 s error tone from the
outer `except` (lines 299–309) when the provider raised. -/
def synthesize (is_initialized : Bool) (provider : List Char → GttsOutcome)
    (text : List Char) : Option TtsAudio :=
  if is_initialized then
    match provider (tts_truncate text) with
    | .ok samples => some (.decoded (ttsNormalize samples))
    | .timeoutExpired => some (.beep (3/10) 440 (1/2))
    | .raisesErr => some (.beep (1/5) 800 (3/10))
  else none

/-! ## src/tts/vietnamese_tts.py — `VietnameseTTS._synthesize_fallback`
(lines 227–329)

Tried in order: gTTS (when importable), the macOS `say` utility (when
available), then the placeholder tone `0.1 * sin(2π·440·t)` of duration
`len(text) * 0.1`.  A tier that raises is caught locally and the next
tier is tried; the sample post-processing of a successful tier is
abstracted to its decoded sample list. -/

/-- Observable outcome of one fallback tier (gTTS or system TTS). -/
inductive ProvOutcome where
  | ok (samples : List ℚ)
  | raisesErr
deriving DecidableEq

/-- Method `_synthesize_fallback`: gTTS tier, then system-TTS tier, then the
placeholder tone.  Always returns an audio buffer. -/
def synthesize_fallback (gtts_available tts_available : Bool)
    (gtts sysTts : ProvOutcome) (text : List Char) : TtsAudio :=
  match gtts_available, gtts with
  | true, .ok s => .decoded s
  | _, _ =>
    match tts_available, sysTts with
    | true, .ok s => .decoded s
    | _, _ => .beep (1/10) 440 (text.length * (1/10))

/-- C4: when the synthesis provider fails — gTTS timing out or raising in
`PureSyncTTS.synthesize`, or every tier of
`VietnameseTTS._synthesize_fallback` failing or being unavailable — the
call still returns a terminal fixed-tone audio buffer: `synthesize` (when
initialized) always returns `some` buffer and never propagates an error,
and `_synthesize_fallback` is total, ending in the 440 Hz placeholder. -/
theorem synthesize_exhausted_terminal_default
    (provider : List Char → GttsOutcome) (text : List Char)
    (hfail : provider (tts_truncate text) = .timeoutExpired ∨
      provider (tts_truncate text) = .raisesErr) :
    (synthesize true provider text = some (.beep (3/10) 440 (1/2)) ∨
      synthesize true provider text = some (.beep (1/5) 800 (3/10))) ∧
    (∀ (p : List Char → GttsOutcome) (t : List Char), (synthesize true p t).isSome) ∧
    (∀ (ga ta : Bool) (g s : ProvOutcome) (t : List Char),
      (ga = false ∨ g = .raisesErr) → (ta = false ∨ s = .raisesErr) →
      synthesize_fallback ga ta g s t = .beep (1/10) 440 (t.length * (1/10))) := by
  refine ⟨?_, ?_, ?_⟩
  · rcases hfail with h | h
    · left; simp [synthesize, h]
    · right; simp [synthesize, h]
  · intro p t
    cases hp : p (tts_truncate t) <;> simp [synthesize, hp]
  · intro ga ta g s t hg ht
    have h1 : ∀ b₂, (match ta, s with
        | true, ProvOutcome.ok s => TtsAudio.decoded s
        | _, _ => (b₂ : TtsAudio)) = b₂ := by
      intro b₂
      rcases ht with h | h <;> subst h
      · cases s <;> rfl
      · cases ta <;> rfl
    rcases hg with h | h <;> subst h
    · cases g <;> simp [synthesize_fallback, h1]
    · cases ga <;> simp [synthesize_fallback, h1]

/-- Closed instance of `synthesize_exhausted_terminal_default`: a provider
that always times out yields the 440 Hz fallback beep. -/
theorem synthesize_exhausted_witness :
    synthesize true (fun _ => GttsOutcome.timeoutExpired) "xin chào".data =
      some (.beep (3/10) 440 (1/2)) := by
  have h := synthesize_exhausted_terminal_default
    (fun _ => GttsOutcome.timeoutExpired) "xin chào".data (Or.inl rfl)
  rcases h.1 with h1 | h1
  · exact h1
  · exact absurd h1 (by simp [synthesize])

/-- C7: the text handed to the synthesis backend is truncated to at most
203 characters (200 plus the `"..."` marker): text at or below the cap
passes through unchanged, longer text is cut to its first 200 characters
plus the marker, and the provider inside `synthesize` is only ever invoked
on the truncated text. -/
theorem synthesize_truncates_input (text : List Char) :
    (tts_truncate text).length ≤ 203 ∧
    (text.length ≤ 200 → tts_truncate text = text) ∧
    (text.length > 200 → tts_truncate text = text.take 200 ++ ['.', '.', '.']) ∧
    (∀ (p : List Char → GttsOutcome),
      synthesize true p text = synthesize true (fun _ => p (tts_truncate text)) text) := by
  refine ⟨?_, ?_, ?_, ?_⟩
  · by_cases h : text.length > 200
    · simp [tts_truncate, h]
    · simp [tts_truncate, h]
      omega
  · intro h
    simp [tts_truncate]
    omega
  · intro h
    simp [tts_truncate, h]
  · intro p
    rfl

/-- Closed instance of `synthesize_truncates_input` at a 201-character
input: the backend-visible text is the 200-character prefix plus the
marker. -/
theorem synthesize_truncates_witness :
    tts_truncate (List.replicate 201 'h') = List.replicate 200 'h' ++ ['.', '.', '.'] := by
  have h := (synthesize_truncates_input (List.replicate 201 'h')).2.2.1
    (by rw [List.length_replicate]; omega)
  rw [h, List.take_replicate]
  norm_num

/-! ## src/stt/whisper_stt.py and sync_simple.py — speech-to-text

`WhisperSTT.transcribe_audio` (lines 58–115) and
`PureSyncSTT.transcribe_audio` (lines 30–77) share the same validation and
result filtering; one embedding covers both.  The Whisper API response is
an oracle input: the raw response text. -/

/-- The sample rate `config.SAMPLE_RATE` (default 16000). -/
def SAMPLE_RATE : ℚ := 16000

/-- The fixed list of meaningless transcriptions rejected on line 68 / 106:
`['', 'you', 'thank you', 'thanks']`. -/
def placeholderTranscripts : List (List Char) :=
  ["".data, "you".data, "thank you".data, "thanks".data]

/-- Method `transcribe_audio`: `None` for empty audio, `None` for audio shorter
than 0.1 s, and `None` when the stripped response text is falsy or its
lower-cased form is in the placeholder list; otherwise the stripped
text. -/
def transcribe_audio (audio : List ℚ) (rawResponse : List Char) : Option (List Char) :=
  if audio.length = 0 then none
  else if (audio.length : ℚ) / SAMPLE_RATE < 1/10 then none
  else
    let text := pyStrip rawResponse
    if text ≠ [] ∧ pyLower text ∉ placeholderTranscripts then some text else none

/-- C8: a transcription whose text, after trimming, is empty or whose
trimmed lower-cased form is one of the known placeholder transcriptions is
reported as "no speech" (`None`), for any input audio. -/
theorem transcribe_audio_placeholder_none (audio : List ℚ) (raw : List Char)
    (h : pyStrip raw = [] ∨ pyLower (pyStrip raw) ∈ placeholderTranscripts) :
    transcribe_audio audio raw = none := by
  rw [transcribe_audio]
  split
  · rfl
  · split
    · rfl
    · have hcond : ¬ (pyStrip raw ≠ [] ∧ pyLower (pyStrip raw) ∉ placeholderTranscripts) := by
        rcases h with h | h
        · intro hc; exact hc.1 h
        · intro hc; exact hc.2 h
      simp only [if_neg hcond]

/-- Closed instance of `transcribe_audio_placeholder_none`: the response
`" Thank You "` on a 2-second silent buffer is reported as no speech. -/
theorem transcribe_audio_placeholder_witness :
    transcribe_audio (List.replicate 32000 0) " Thank You ".data = none :=
  transcribe_audio_placeholder_none (List.replicate 32000 0) " Thank You ".data
    (Or.inr (by decide))

/-! ## `audio_array_to_bytes` (whisper_stt.py 23–56, sync_simple.py 79–112)

The processing chain before WAV encoding: DC-offset removal,
normalization to 0.9 peak, and the "high-pass filter" loop.  The PCM16
WAV encoding performed by `sf.write` is outside every claim and is not
modelled; the function yields the processed sample list handed to
`sf.write`. -/

/-- Lines 86–87 / 30–31: `audio = audio - np.mean(audio)` (the callers
guarantee nonempty audio; an empty array is returned unchanged). -/
def remove_dc (a : List ℚ) : List ℚ :=
  if a.length = 0 then a
  else
    let mean := a.sum / a.length
    a.map (fun x => x - mean)

/-- Lines 89–93 / 33–37: normalize to 0.9 peak when the peak is positive:
`audio = audio * (0.9 / max_val)`. -/
def normalize_peak (a : List ℚ) : List ℚ :=
  let max_val := (a.map qabs).foldr qmax 0
  if max_val > 0 then a.map (fun x => x * ((9/10) / max_val)) else a

/-- The in-place loop of lines 97–100 / 41–44:
`for i in range(1, len(a)): a[i] = alpha * (a[i-1] + a[i] - a[i-1])`,
where `a[i-1]` reads the already-updated previous element. -/
def hpLoop (alpha : ℚ) (prev : ℚ) : List ℚ → List ℚ
  | [] => []
  | x :: xs =>
    let x' := alpha * (prev + x - prev)
    x' :: hpLoop alpha x' xs

/-- Lines 95–100 / 39–44: the loop runs only when `len(audio) > 100`, with
`alpha = 0.95`, starting from index 1; index 0 is untouched. -/
def apply_high_pass (a : List ℚ) : List ℚ :=
  if a.length > 100 then
    match a with
    | [] => []
    | x :: xs => x :: hpLoop (19/20) x xs
  else a

/-- Embedding of `audio_array_to_bytes` up to (but not including) the WAV encoding. -/
def audio_array_to_bytes (a : List ℚ) : List ℚ :=
  apply_high_pass (normalize_peak (remove_dc a))

theorem hpLoop_eq_map (alpha : ℚ) (xs : List ℚ) :
    ∀ prev : ℚ, hpLoop alpha prev xs = xs.map (fun v => alpha * v) := by
  induction xs with
  | nil => intro prev; rfl
  | cons y ys ih =>
    intro prev
    simp only [hpLoop, List.map_cons, add_sub_cancel_left, List.cons.injEq, true_and]
    exact ih _

/-- C10: for arrays longer than 100 samples, the "high-pass filter" loop of
`audio_array_to_bytes` is exactly the map multiplying every sample from
index 1 on by `alpha = 0.95` and leaving sample 0 unchanged — the
expression `a[i-1] + a[i] - a[i-1]` cancels, so no neighbouring-sample
(frequency-dependent) filtering takes place. -/
theorem apply_high_pass_is_pure_scaling (a : List ℚ) (h : a.length > 100) :
    apply_high_pass a = a.take 1 ++ (a.drop 1).map (fun v => (19/20) * v) := by
  match a with
  | [] => simp at h
  | x :: xs =>
    rw [apply_high_pass, if_pos h]
    have h1 : (x :: xs).take 1 = [x] := rfl
    have h2 : (x :: xs).drop 1 = xs := rfl
    rw [h1, h2, List.singleton_append]
    exact congrArg (x :: ·) (hpLoop_eq_map (19/20) xs x)

/-- Closed instance of `apply_high_pass_is_pure_scaling` on a 101-sample
array. -/
theorem apply_high_pass_witness :
    apply_high_pass ((2:ℚ) :: List.replicate 100 1) =
      ((2:ℚ) :: List.replicate 100 1).take 1 ++
        (((2:ℚ) :: List.replicate 100 1).drop 1).map (fun v => (19/20) * v) :=
  apply_high_pass_is_pure_scaling ((2:ℚ) :: List.replicate 100 1)
    (by rw [List.length_cons, List.length_replicate]; omega)

/-! ## app.py — `convert_audio_to_numpy` (lines 61–138)

For a non-`.wav` upload the code runs `subprocess.run(['ffmpeg', ...])`;
only a run that *completes* with a nonzero exit code reaches the pydub
fallback (line 94).  A spawn failure (ffmpeg not installed →
`FileNotFoundError`) and a pydub exception both propagate to the outer
`except`, which logs and returns `None` (line 138).  Decoded audio is
modelled as the final mono 16 kHz sample list produced by reading the
converted file; the direct `.wav` branch returns the file's samples.  A
`DecodeTrace` records, alongside the returned value, which decoders were
invoked — mirroring the call structure of the source. -/

/-- Outcome of `subprocess.run(['ffmpeg', ...])`: the spawn itself raised
(`ffmpeg` unavailable), or ffmpeg ran and exited with a code, writing
`outWav` when the code is 0. -/
inductive FfmpegRun where
  | unavailable
  | ran (exitCode : ℕ) (outWav : List ℚ)
deriving DecidableEq

/-- Outcome of the pydub fallback `AudioSegment.from_file(...)` +
`export`: decoded audio, or an exception. -/
inductive PydubRun where
  | ok (outWav : List ℚ)
  | raisesErr
deriving DecidableEq

/-- The observable result of `convert_audio_to_numpy`: the returned value
(`None` on any failure) and which decode paths were invoked. -/
structure DecodeTrace where
  result : Option (List ℚ)
  ffmpegInvoked : Bool
  pydubInvoked : Bool
deriving DecidableEq

/-- Embedding of `convert_audio_to_numpy` for an upload with extension `fileExt`
(lower-cased, with dot): `.wav` files are read directly; anything else
goes through ffmpeg, with pydub tried only after a completed ffmpeg run
exits nonzero; every exception path returns `None`. -/
def convert_audio_to_numpy (fileExt : List Char) (ffmpeg : FfmpegRun)
    (pydub : PydubRun) (wavContents : List ℚ) : DecodeTrace :=
  if fileExt ≠ ".wav".data then
    match ffmpeg with
    | .unavailable => ⟨none, true, false⟩
    | .ran exitCode outWav =>
      if exitCode ≠ 0 then
        match pydub with
        | .ok pydubWav => ⟨some pydubWav, true, true⟩
        | .raisesErr => ⟨none, true, true⟩
      else ⟨some outWav, true, false⟩
  else ⟨some wavContents, false, false⟩

/-- C6 counterexample: for a `.webm` upload with ffmpeg unavailable (the
spawn raises `FileNotFoundError`) and a pydub decoder that would succeed,
the function returns `None` without ever invoking pydub — the secondary
decoder is *not* attempted when the primary tool is unavailable, and the
exhausted result is the untyped `None` sentinel, not a typed decode
error. -/
theorem convert_audio_unavailable_counterexample :
    convert_audio_to_numpy ".webm".data FfmpegRun.unavailable (PydubRun.ok [1]) [] =
      ⟨none, true, false⟩ ∧
    (convert_audio_to_numpy ".webm".data FfmpegRun.unavailable (PydubRun.ok [1]) []).pydubInvoked
      = false ∧
    (convert_audio_to_numpy ".webm".data FfmpegRun.unavailable (PydubRun.ok [1]) []).result
      = none := by
  refine ⟨?_, ?_, ?_⟩ <;> decide

/-- C6 (amended): for every non-WAV upload, ffmpeg is invoked first; the
pydub fallback is attempted exactly when ffmpeg ran to completion and
exited nonzero (not when the tool is unavailable — then the call fails
immediately with `None`); when both paths are exhausted the result is the
untyped `None` sentinel — never a `some` (in particular never empty audio
`some []`). -/
theorem convert_audio_fallback_structure (fileExt : List Char) (ffmpeg : FfmpegRun)
    (pydub : PydubRun) (wavContents : List ℚ)
    (hext : fileExt ≠ ".wav".data) :
    (convert_audio_to_numpy fileExt ffmpeg pydub wavContents).ffmpegInvoked = true ∧
    ((convert_audio_to_numpy fileExt ffmpeg pydub wavContents).pydubInvoked = true ↔
      ∃ c w, ffmpeg = .ran c w ∧ c ≠ 0) ∧
    (ffmpeg = .unavailable →
      convert_audio_to_numpy fileExt ffmpeg pydub wavContents = ⟨none, true, false⟩) ∧
    (∀ c w, ffmpeg = .ran c w → c ≠ 0 → pydub = .raisesErr →
      (convert_audio_to_numpy fileExt ffmpeg pydub wavContents).result = none) := by
  refine ⟨?_, ?_, ?_, ?_⟩
  · cases ffmpeg with
    | unavailable => simp [convert_audio_to_numpy, hext]
    | ran c w =>
      by_cases hc : c ≠ 0
      · cases pydub <;> simp [convert_audio_to_numpy, hext, hc]
      · simp [convert_audio_to_numpy, hext, hc]
  · cases ffmpeg with
    | unavailable => simp [convert_audio_to_numpy, hext]
    | ran c w =>
      by_cases hc : c ≠ 0
      · cases pydub <;> simp [convert_audio_to_numpy, hext, hc]
      · simp [convert_audio_to_numpy, hext, hc]
  · intro hf
    subst hf
    simp [convert_audio_to_numpy, hext]
  · intro c w hf hc hp
    subst hf
    subst hp
    simp [convert_audio_to_numpy, hext, hc]

/-- Closed instance of `convert_audio_fallback_structure`: an `.mp4`
upload where ffmpeg exits 1 and pydub raises yields `None` with both
decoders having been invoked. -/
theorem convert_audio_fallback_witness :
    (convert_audio_to_numpy ".mp4".data (FfmpegRun.ran 1 []) PydubRun.raisesErr []).result
      = none ∧
    (convert_audio_to_numpy ".mp4".data (FfmpegRun.ran 1 []) PydubRun.raisesErr
      []).pydubInvoked = true := by
  have h := convert_audio_fallback_structure ".mp4".data (FfmpegRun.ran 1 [])
    PydubRun.raisesErr [] (by decide)
  exact ⟨h.2.2.2 1 [] rfl (by decide) rfl, h.2.1.mpr ⟨1, [], rfl, by decide⟩⟩

end VoiceAI
